import Mathlib

/-!
Verification of the VidyaVani caching / orchestration layer.

The JavaScript sources are shallowly embedded: JS strings are modelled as
Lean strings (packed lists of characters), numbers that the source keeps in
32-bit range are modelled as Int with explicit reduction mod 2^32, and the
stateful route handlers are modelled as explicit state-passing functions.
Character-level operations (toLowerCase, trim, charCodeAt) are modelled at
ASCII fidelity, which is the range the repository exercises.
-/

/-! ## Definitions -/

/-- ASCII whitespace recognised by the model of JS trim. -/
def isJsSpace (c : Char) : Bool :=
  c == ' ' || c == '\t' || c == '\n' || c == '\r' || c == '\x0b' || c == '\x0c'

/-- Model of JS String.prototype.toLowerCase, ASCII case mapping. -/
def jsToLower (s : String) : String :=
  ⟨s.data.map Char.toLower⟩

/-- Strip leading and trailing whitespace from a character list. -/
def jsTrimList (cs : List Char) : List Char :=
  ((cs.dropWhile isJsSpace).reverse.dropWhile isJsSpace).reverse

/-- Model of JS String.prototype.trim. -/
def jsTrim (s : String) : String :=
  ⟨jsTrimList s.data⟩

/-- Reinterpretation of an integer as a signed 32-bit value: the effect of
    the JS expression hash & hash, which truncates to a signed 32-bit int. -/
def toInt32 (n : Int) : Int :=
  if n % 4294967296 < 2147483648 then n % 4294967296 else n % 4294967296 - 4294967296

/-- Loop of simpleHash: hash = ((hash << 5) - hash) + charCode, then
    hash = hash & hash (truncation to signed 32-bit). The shift itself also
    truncates, hence the inner toInt32 around hash * 32. -/
def simpleHashLoop : List Char → Int → Int
  | [], h => h
  | c :: cs, h => simpleHashLoop cs (toInt32 (toInt32 (h * 32) - h + c.toNat))

/-- Digit characters of JS Number.prototype.toString(36). -/
def base36digit (n : Nat) : Char :=
  if n < 10 then Char.ofNat (48 + n) else Char.ofNat (87 + n)

/-- Fuel-indexed base-36 digit accumulator; the fuel bounds the digit count. -/
def natToBase36Aux : Nat → Nat → List Char → List Char
  | 0, _, acc => acc
  | fuel + 1, n, acc =>
    if n = 0 then acc else natToBase36Aux fuel (n / 36) (base36digit (n % 36) :: acc)

/-- Model of JS Number.prototype.toString(36) on a nonnegative integer. -/
def natToBase36 (n : Nat) : String :=
  if n = 0 then "0" else ⟨natToBase36Aux n n []⟩

/-- src/unnamed/part_005 lines 41-49: simpleHash(str) — rolling signed
    32-bit hash of the character codes, absolute value, base-36 encoding. -/
def simpleHash (str : String) : String :=
  natToBase36 (simpleHashLoop str.data 0).natAbs

/-- src/unnamed/part_005 lines 34-38: getAudioCacheKey(text, voiceId,
    languageCode) for the standalone audio route (free-text variant). -/
def getAudioCacheKeyFree (text voiceId languageCode : String) : String :=
  "audio_" ++ voiceId ++ "_" ++ languageCode ++ "_" ++ simpleHash text

/-- Modelled from the words of the spec (section 4.1): the reference
    free-text hash, iterating hash = (hash * 31 + charCode) mod 2^32 from 0. -/
def specFreeTextHash (s : String) : Nat :=
  s.data.foldl (fun h c => (h * 31 + c.toNat) % 4294967296) 0

/-- Modelled from the words of the spec: the reference digest — the 32-bit
    hash value, absolute value, base-36. Taking an absolute value only has an
    effect when the 32-bit word is read as a signed integer, hence toInt32. -/
def specRefDigest (s : String) : String :=
  natToBase36 (toInt32 (specFreeTextHash s)).natAbs

/-- The same accumulation without any 32-bit reduction. -/
def polyLoop : List Char → Int → Int
  | [], h => h
  | c :: cs, h => polyLoop cs (h * 31 + c.toNat)

/-- lesson.js line 39: VALID_LANGUAGES. -/
def VALID_LANGUAGES : List String :=
  ["English", "Hindi", "Marathi", "Tamil", "Telugu", "Kannada", "Bengali",
   "Gujarati", "Malayalam"]

/-- lesson.js lines 47-49: getLessonCacheKey(topic, grade, language). -/
def getLessonCacheKey (topic : String) (grade : Int) (language : String) : String :=
  "lesson_" ++ jsTrim (jsToLower topic) ++ "_" ++ toString grade ++ "_" ++ jsToLower language

/-- lesson.js lines 51-53: getAudioCacheKey(topic, grade, language), the
    auto-audio key of the lesson route (structured variant). -/
def getAudioCacheKeyLesson (topic : String) (grade : Int) (language : String) : String :=
  "audio_" ++ jsTrim (jsToLower topic) ++ "_" ++ toString grade ++ "_" ++ jsToLower language

/-- part_006 lines 36-38: getDiagramCacheKey(topic, grade, style). -/
def getDiagramCacheKey (topic : String) (grade : Int) (style : String) : String :=
  "img_" ++ jsTrim (jsToLower topic) ++ "_" ++ toString grade ++ "_" ++ style

/-- Join a list of components with a separator. -/
def joinSep (sep : String) : List String → String
  | [] => ""
  | [x] => x
  | x :: xs => x ++ sep ++ joinSep sep xs

/-- Modelled from the words of the spec (4.1): key = resource-type prefix,
    lower-cased/trimmed topic, grade number, lower-cased language, joined by
    the fixed separator. -/
def specDeriveKey (pfx topic : String) (grade : Int) (language : String) : String :=
  joinSep "_" [pfx, jsTrim (jsToLower topic), toString grade, jsToLower language]

/-- The same derivation with the style identifier, verbatim, as the last
    component (what the diagram key actually uses). -/
def specDeriveKeyStyle (pfx topic : String) (grade : Int) (style : String) : String :=
  joinSep "_" [pfx, jsTrim (jsToLower topic), toString grade, style]

/-- The literal opening of a break tag. -/
def breakOpen : List Char := ['<', 'b', 'r', 'e', 'a', 'k']

/-- One attempted match of the break-tag regex at the current position: the
    text must start with "break" opened by an angle bracket and a closing
    bracket must occur later; the inner part is everything up to the first
    closing bracket. Returns the inner part and the remainder after it. -/
def matchBreak (l : List Char) : Option (List Char × List Char) :=
  if breakOpen.isPrefixOf l then
    match (l.drop 6).dropWhile (fun c => c ≠ '>') with
    | '>' :: after => some ((l.drop 6).takeWhile (fun c => c ≠ '>'), after)
    | _ => none
  else none

/-- All matches of the break-tag regex, scanning left to right and resuming
    after each match; the fuel (initially the length) bounds the scan. -/
def findBreakTagsAux : Nat → List Char → List (List Char)
  | 0, _ => []
  | _ + 1, [] => []
  | fuel + 1, c :: cs =>
    match matchBreak (c :: cs) with
    | some (inner, after) => (breakOpen ++ inner ++ ['>']) :: findBreakTagsAux fuel after
    | none => findBreakTagsAux fuel cs

def findBreakTags (l : List Char) : List (List Char) :=
  findBreakTagsAux l.length l

/-- JS String.replace with a string search pattern: replace the first
    occurrence, leave the string unchanged when the pattern does not occur. -/
def replaceFirst (s pat repl : List Char) : List Char :=
  match s with
  | [] => if pat.isPrefixOf ([] : List Char) then repl else []
  | c :: cs =>
    if pat.isPrefixOf (c :: cs) then repl ++ (c :: cs).drop pat.length
    else c :: replaceFirst cs pat repl

/-- The placeholder written for tag number i. -/
def placeholder (i : Nat) : List Char :=
  "__SSML_TAG_".data ++ (Nat.repr i).data ++ "__".data

/-- First forEach of buildSSML: substitute each matched tag by its
    placeholder. -/
def substTags (cleanText : List Char) : List (List Char) → Nat → List Char
  | [], _ => cleanText
  | tag :: rest, i => substTags (replaceFirst cleanText tag (placeholder i)) rest (i + 1)

/-- Second forEach of buildSSML: restore each placeholder to its tag. -/
def restoreTags (cleanText : List Char) : List (List Char) → Nat → List Char
  | [], _ => cleanText
  | tag :: rest, i => restoreTags (replaceFirst cleanText (placeholder i) tag) rest (i + 1)

/-- One global character replacement, as in replace(/x/g, entity). -/
def replaceAllChar (target : Char) (repl : List Char) (s : List Char) : List Char :=
  s.flatMap (fun c => if c = target then repl else [c])

/-- The five sequential escaping passes of buildSSML, in source order. -/
def escapeXml (s : List Char) : List Char :=
  replaceAllChar '\'' "&apos;".data
    (replaceAllChar '"' "&quot;".data
      (replaceAllChar '>' "&gt;".data
        (replaceAllChar '<' "&lt;".data
          (replaceAllChar '&' "&amp;".data s))))

/-- The shared body of both buildSSML variants: protect tags, escape,
    restore. -/
def ssmlCore (text : List Char) : List Char :=
  let tags := findBreakTags text
  restoreTags (escapeXml (substTags text tags 0)) tags 0

/-- lesson.js lines 88-109: buildSSML, single-line speak/prosody wrapper,
    then trim. -/
def buildSSML_lesson (text : String) : String :=
  ⟨jsTrimList ("<speak><prosody rate=\"medium\" pitch=\"medium\">".data
      ++ ssmlCore text.data ++ "</prosody></speak>".data)⟩

/-- The indented wrapper prefix of the part_005 buildSSML template. -/
def ssmlPreAudio : String := "\n    <speak>\n      <prosody rate=\"medium\" pitch=\"medium\">\n        "

/-- The indented wrapper suffix of the part_005 buildSSML template. -/
def ssmlPostAudio : String := "\n      </prosody>\n    </speak>\n  "

/-- part_005 lines 528-560: buildSSML, indented speak/prosody wrapper, then
    trim. -/
def buildSSML_audio (text : String) : String :=
  ⟨jsTrimList (ssmlPreAudio.data ++ ssmlCore text.data ++ ssmlPostAudio.data)⟩

/-- A character that none of the escaping passes rewrites and that cannot
    begin a tag or a placeholder. -/
def plainChar (c : Char) : Bool :=
  !(c == '&' || c == '<' || c == '>' || c == '"' || c == '\'' || c == '_')

/-- JS String.prototype.includes: contiguous substring occurrence. -/
def jsIncludes (s sub : List Char) : Bool :=
  match s with
  | [] => sub.isPrefixOf []
  | c :: cs => sub.isPrefixOf (c :: cs) || jsIncludes cs sub

/-- Count of newline characters in a list. -/
def countNl (l : List Char) : Nat :=
  (l.filter (fun c => c == '\n')).length

/-- Truncate a whitespace run just after its last newline. -/
def uptoLastNl (run : List Char) : List Char :=
  (run.reverse.dropWhile (fun c => c ≠ '\n')).reverse

/-- Splitter for the paragraph-separator regex (a newline, optional
    whitespace, then at least one more newline): a separator starts at a
    newline whose whitespace run holds a second newline, and extends to the
    last newline of that run. The fuel (initially the length) bounds the
    scan. -/
def splitBlankAux : Nat → List Char → List Char → List (List Char)
  | 0, _, cur => [cur.reverse]
  | fuel + 1, l, cur =>
    match l with
    | [] => [cur.reverse]
    | c :: cs =>
      if c = '\n' then
        let run := (c :: cs).takeWhile isJsSpace
        if 2 ≤ countNl run then
          cur.reverse :: splitBlankAux fuel ((c :: cs).drop (uptoLastNl run).length) []
        else
          splitBlankAux fuel cs (c :: cur)
      else
        splitBlankAux fuel cs (c :: cur)

/-- The split on blank-line runs used by parseLesson. -/
def jsSplitBlank (s : List Char) : List (List Char) :=
  splitBlankAux s.length s []

/-- Case-insensitive literal prefix strip: the pattern is given lower-cased;
    returns the remainder when the text starts with it. -/
def stripCi : List Char → List Char → Option (List Char)
  | [], rest => some rest
  | _ :: _, [] => none
  | p :: ps, c :: cs => if c.toLower = p then stripCi ps cs else none

/-- The anchored label regex of parseLesson: one of the alternatives
    (PARAGRAPH with a number, Introduction, Explanation, Example, Summary),
    case-insensitive, an optional colon, trailing whitespace; stripped once
    when present. -/
def stripLabel (l : List Char) : List Char :=
  let afterPara : Option (List Char) :=
    match stripCi "paragraph ".data l with
    | some rest =>
      let ds := rest.takeWhile Char.isDigit
      if ds.isEmpty then none else some (rest.drop ds.length)
    | none => none
  let afterAlt : Option (List Char) :=
    match afterPara with
    | some r => some r
    | none =>
      match stripCi "introduction".data l with
      | some r => some r
      | none =>
        match stripCi "explanation".data l with
        | some r => some r
        | none =>
          match stripCi "example".data l with
          | some r => some r
          | none => stripCi "summary".data l
  match afterAlt with
  | none => l
  | some rest =>
    let rest' := match rest with
      | ':' :: r => r
      | r => r
    rest'.dropWhile isJsSpace

/-- The four narrative sections of a parsed lesson. -/
structure ParsedLesson where
  introduction : String
  explanation : String
  analogy : String
  recap : String
deriving DecidableEq, Repr

/-- lesson.js lines 443-464: parseLesson(rawText, topic, gradeLevel) —
    split on blank-line runs, trim, keep paragraphs longer than 30, strip
    generator labels, trim, keep paragraphs longer than 20, pad to four with
    a placeholder sentence, project the first four. -/
def parseLesson (rawText topic : String) (gradeLevel : Int) : ParsedLesson :=
  let paragraphs0 := ((jsSplitBlank rawText.data).map jsTrimList).filter
    (fun p => 30 < p.length)
  let paragraphs := (paragraphs0.map (fun p => jsTrimList (stripLabel p))).filter
    (fun p => 20 < p.length)
  let pad := "Content about ".data ++ topic.data ++ " for grade ".data
    ++ (toString gradeLevel).data ++ ".".data
  let padded := paragraphs ++ List.replicate (4 - paragraphs.length) pad
  { introduction := ⟨padded.getD 0 []⟩
    explanation := ⟨padded.getD 1 []⟩
    analogy := ⟨padded.getD 2 []⟩
    recap := ⟨padded.getD 3 []⟩ }

/-- part_006 line 30: VALID_STYLES. -/
def VALID_STYLES : List String := ["iconic", "abstract", "flow", "illustration", "diagram"]

/-- part_006 lines 44-100: the static visual-topic keyword list, verbatim. -/
def visualTopics : List String :=
  ["photosynthesis", "cell", "mitosis", "meiosis", "dna", "rna", "gene",
   "reproduction", "sexual reproduction", "asexual reproduction", "fertilization",
   "plant", "flower", "leaf", "root", "stem", "seed",
   "animal", "mammal", "bird", "fish", "reptile", "amphibian", "insect",
   "food chain", "food web", "ecosystem", "habitat", "biodiversity",
   "human body", "heart", "brain", "lung", "kidney", "liver", "stomach",
   "digestive system", "respiratory system", "circulatory system", "nervous system",
   "skeletal system", "muscular system", "immune system", "reproductive system",
   "blood", "bone", "muscle", "tissue", "organ", "heridity",
   "evolution", "natural selection", "adaptation", "species",
   "force", "motion", "velocity", "acceleration", "gravity", "friction",
   "energy", "kinetic", "potential", "mechanical", "thermal",
   "electricity", "circuit", "voltage", "current", "resistance",
   "magnet", "magnetism", "electromagnetic", "wave", "frequency",
   "light", "reflection", "refraction", "prism", "spectrum",
   "sound", "vibration", "amplitude", "wavelength",
   "newton", "law of motion", "thermodynamics",
   "atom", "molecule", "element", "compound", "mixture",
   "chemical reaction", "equation", "bond", "ionic", "covalent",
   "periodic table", "metal", "non-metal", "noble gas",
   "acid", "base", "ph", "neutral", "salt",
   "oxidation", "reduction", "combustion", "synthesis",
   "solar system", "planet", "star", "galaxy", "universe",
   "earth", "atmosphere", "layer", "ozone", "greenhouse",
   "water cycle", "evaporation", "condensation", "precipitation",
   "rock cycle", "igneous", "sedimentary", "metamorphic",
   "volcano", "earthquake", "plate tectonic", "fault", "tsunami",
   "mountain", "valley", "river", "ocean", "lake", "glacier",
   "weather", "climate", "wind", "rain", "storm", "hurricane",
   "season", "rotation", "revolution", "orbit", "eclipse",
   "geometry", "triangle", "circle", "square", "rectangle", "pentagon",
   "angle", "shape", "polygon", "quadrilateral", "parallel", "perpendicular",
   "coordinate", "graph", "axis", "slope", "line",
   "fraction", "decimal", "percentage", "ratio", "proportion",
   "volume", "area", "perimeter", "surface",
   "machine", "lever", "pulley", "wheel", "axle", "gear",
   "simple machine", "complex machine", "mechanical advantage",
   "computer", "hardware", "software", "network", "algorithm",
   "robot", "artificial intelligence", "sensor",
   "cycle", "process", "system", "structure", "diagram",
   "experiment", "observation", "hypothesis", "method",
   "classification", "taxonomy", "hierarchy"]

/-- part_006 lines 43-113: needsVisualDiagram — case-insensitive substring
    membership of any keyword in the lower-cased/trimmed topic. -/
def needsVisualDiagram (topic : String) : Bool :=
  visualTopics.any (fun vt => jsIncludes (jsTrim (jsToLower topic)).data vt.data)

/-- A grade field of a JSON request body: absent, a number, or a string. -/
inductive GradeField where
  | absent
  | num (n : Int)
  | str (s : String)
deriving DecidableEq, Repr

/-- Decimal digit accumulation. -/
def digitsToNat (ds : List Char) : Nat :=
  ds.foldl (fun a c => a * 10 + (c.toNat - 48)) 0

/-- Model of JS parseInt on a string: optional leading whitespace, optional
    sign, then a leading run of decimal digits; none when no digit is found.
    Radix auto-detection (a leading 0x) is not modelled. -/
def jsParseInt (s : String) : Option Int :=
  match s.data.dropWhile isJsSpace with
  | '-' :: rest =>
    let ds := rest.takeWhile Char.isDigit
    if ds.isEmpty then none else some (-(digitsToNat ds : Int))
  | '+' :: rest =>
    let ds := rest.takeWhile Char.isDigit
    if ds.isEmpty then none else some (digitsToNat ds : Int)
  | rest =>
    let ds := rest.takeWhile Char.isDigit
    if ds.isEmpty then none else some (digitsToNat ds : Int)

/-- parseInt(grade) combined with the JS defaulting grade-expression: NaN
    (absent or unparsable) and 0 are falsy and fall back to 6. -/
def jsGradeLevel : GradeField → Int
  | .absent => 6
  | .num n => if n = 0 then 6 else n
  | .str s =>
    match jsParseInt s with
    | none => 6
    | some n => if n = 0 then 6 else n

/-- JS defaulting on a possibly-absent string field: absent and the empty
    string are falsy. -/
def jsOrDefault (o : Option String) (d : String) : String :=
  match o with
  | none => d
  | some s => if s = "" then d else s

structure DiagramRecord where
  imageBase64 : String
  style : String
deriving DecidableEq, Repr

structure DiagramSt where
  diagramCache : String → Option DiagramRecord
  imageApiCallCount : Nat
  imageCacheHitCount : Nat

/-- Observable operations of one diagram request, recorded in order. -/
inductive DiagramEvent where
  | cacheGet (key : String)
  | cacheSet (key : String)
  | apiCall
deriving DecidableEq, Repr

structure DiagramStats where
  apiCalls : Nat
  cacheHits : Nat
deriving DecidableEq, Repr

/-- The JSON success payload of the diagram route; absent keys are none.
    The savingsPercent string (floating-point formatting) is not modelled. -/
structure DiagramResp where
  imageBase64 : Option String
  style : String
  message : Option String
  suggestion : Option String
  cached : Option Bool
  stats : Option DiagramStats
deriving DecidableEq, Repr

inductive DiagramOut where
  | badRequest (error : String)
  | serverError (error : String)
  | ok (r : DiagramResp)
deriving DecidableEq, Repr

/-- Functional update of a cache map. -/
def cacheSet {α : Type} (m : String → Option α) (k : String) (v : α) : String → Option α :=
  fun k' => if k' = k then some v else m k'

structure DiagramReq where
  topic : String
  grade : GradeField
  language : Option String
  style : Option String

/-- part_006 lines 118-301: the diagram route handler. The image
    collaborator is a parameter taking the selected style, the topic and the
    grade (prompt text construction is glue around it); none models a
    response with no image field. Returns the response, the new state and
    the trace of cache and collaborator operations. -/
def handleDiagram (bedrockImage : String → String → Int → Option String)
    (req : DiagramReq) (st : DiagramSt) : DiagramOut × DiagramSt × List DiagramEvent :=
  if req.topic = "" then (.badRequest "Topic is required", st, [])
  else if 200 < req.topic.length then (.badRequest "Topic too long (max 200 characters)", st, [])
  else
    let gradeLevel := jsGradeLevel req.grade
    let diagramStyle := jsOrDefault req.style "iconic"
    if !(VALID_STYLES.contains diagramStyle) then
      (.badRequest "Invalid style. Must be one of: iconic, abstract, flow, illustration, diagram", st, [])
    else if !(needsVisualDiagram req.topic) then
      (.ok { imageBase64 := none, style := diagramStyle,
             message := some "This topic doesn't require a visual diagram",
             suggestion := some "Visual may not add significant value for this concept",
             cached := none, stats := none }, st, [])
    else
      let cacheKey := getDiagramCacheKey req.topic gradeLevel diagramStyle
      match st.diagramCache cacheKey with
      | some cached =>
        (.ok { imageBase64 := some cached.imageBase64, style := diagramStyle,
               message := none, suggestion := none, cached := some true,
               stats := some ⟨st.imageApiCallCount, st.imageCacheHitCount + 1⟩ },
         { st with imageCacheHitCount := st.imageCacheHitCount + 1 },
         [.cacheGet cacheKey])
      | none =>
        match bedrockImage diagramStyle req.topic gradeLevel with
        | none => (.serverError "No image generated", st, [.cacheGet cacheKey, .apiCall])
        | some img =>
          (.ok { imageBase64 := some img, style := diagramStyle,
                 message := none, suggestion := none, cached := some false,
                 stats := some ⟨st.imageApiCallCount + 1, st.imageCacheHitCount⟩ },
           { st with
               diagramCache := cacheSet st.diagramCache cacheKey ⟨img, diagramStyle⟩,
               imageApiCallCount := st.imageApiCallCount + 1 },
           [.cacheGet cacheKey, .apiCall, .cacheSet cacheKey])

structure VoiceConfig where
  voiceId : String
  languageCode : String
  engine : String
  originalLanguage : String
  usingFallback : Bool
deriving DecidableEq, Repr

/-- part_005 lines 487-490: voiceCapabilities lookup. -/
def voiceCapabilities (v : String) : Option String :=
  if v = "Aditi" then some "standard"
  else if v = "Raveena" then some "standard"
  else none

/-- part_005 lines 494-505: languageMap lookup (unsupported languages fall
    back to the Hindi code). -/
def languageMap (l : String) : Option String :=
  if l = "English" then some "en-IN"
  else if l = "Hindi" then some "hi-IN"
  else if l = "Marathi" then some "hi-IN"
  else if l = "Tamil" then some "hi-IN"
  else if l = "Telugu" then some "hi-IN"
  else if l = "Bengali" then some "hi-IN"
  else if l = "Gujarati" then some "hi-IN"
  else if l = "Kannada" then some "hi-IN"
  else if l = "Malayalam" then some "hi-IN"
  else none

/-- part_005 lines 486-523: getVoiceConfig(language, customVoiceId). -/
def audioGetVoiceConfig (language : String) (customVoiceId : Option String) : VoiceConfig :=
  let voiceId := jsOrDefault customVoiceId "Aditi"
  { voiceId := voiceId
    languageCode := (languageMap language).getD "en-IN"
    engine := (voiceCapabilities voiceId).getD "standard"
    originalLanguage := language
    usingFallback := language != "English" && language != "Hindi" }

/-- Remove every bracketed tag span, as replace of the tag regex by the
    empty string: an opening bracket with no later closing bracket stays. -/
def stripTagsAux : Nat → List Char → List Char
  | 0, l => l
  | fuel + 1, l =>
    match l with
    | [] => []
    | c :: cs =>
      if c = '<' then
        match cs.dropWhile (fun x => x ≠ '>') with
        | '>' :: after => stripTagsAux fuel after
        | _ => c :: stripTagsAux fuel cs
      else c :: stripTagsAux fuel cs

def stripTags (l : List Char) : List Char :=
  stripTagsAux l.length l

/-- Number of maximal non-whitespace runs: the length of split on
    whitespace with empty pieces dropped. -/
def countWords (l : List Char) : Nat :=
  (l.foldl
    (fun (st : Nat × Bool) c =>
      if isJsSpace c then (st.1, false)
      else if st.2 then st else (st.1 + 1, true))
    (0, false)).1

/-- Extract the millisecond value of the first time attribute of a break
    tag: digits followed by the ms or s unit inside quotes; 0 when absent. -/
def breakMsAux : Nat → List Char → Nat
  | 0, _ => 0
  | fuel + 1, l =>
    match l with
    | [] => 0
    | c :: cs =>
      if "time=\"".data.isPrefixOf (c :: cs) then
        let rest := (c :: cs).drop 6
        let ds := rest.takeWhile Char.isDigit
        if ds.isEmpty then breakMsAux fuel cs
        else
          let after := rest.drop ds.length
          if "ms\"".data.isPrefixOf after then digitsToNat ds
          else if "s\"".data.isPrefixOf after then digitsToNat ds * 1000
          else breakMsAux fuel cs
      else breakMsAux fuel cs

def breakTagMs (tag : List Char) : Nat :=
  breakMsAux tag.length tag

/-- part_005 lines 565-593: estimateDuration — word count at 150 words per
    minute, rounded up, plus the rounded-up sum of the break pauses. The
    model computes the two ceilings exactly over the rationals; the source
    computes them in floating point, which can differ by one second exactly
    at integral values. -/
def estimateDuration (text : String) : Nat :=
  let words := countWords (stripTags text.data)
  let seconds := (2 * words + 4) / 5
  let breakMsTotal := ((findBreakTags text.data).map breakTagMs).sum
  seconds + (breakMsTotal + 999) / 1000

structure AudioCacheEntry where
  audioBase64 : String
  duration : Nat
deriving DecidableEq, Repr

structure AudioSt where
  audioCache : String → Option AudioCacheEntry
  audioApiCallCount : Nat
  audioCacheHitCount : Nat

structure AudioStats where
  apiCalls : Nat
  cacheHits : Nat
deriving DecidableEq, Repr

/-- The JSON success payload of the audio route; keys the source leaves out
    of a response (or sets to undefined) are none. The savingsPercent
    string (floating-point formatting) is not modelled. -/
structure AudioResp where
  audioBase64 : String
  voiceUsed : String
  language : String
  duration : Nat
  cached : Bool
  usingFallback : Option Bool
  fallbackMessage : Option String
  stats : Option AudioStats
deriving DecidableEq, Repr

inductive AudioOut where
  | badRequest (error : String)
  | serverError (error : String)
  | ok (r : AudioResp)
deriving DecidableEq, Repr

structure AudioReq where
  text : Option String
  language : Option String
  voiceId : Option String

/-- part_005 lines 54-207: the standalone narration route handler. The
    speech collaborator maps the SSML document to the base64 audio; none
    models a thrown synthesis error. -/
def handleAudio (polly : String → Option String) (req : AudioReq) (st : AudioSt) :
    AudioOut × AudioSt :=
  match req.text with
  | none => (.badRequest "Text is required", st)
  | some text =>
    if text = "" then (.badRequest "Text is required", st)
    else
      let cleanText := jsTrim text
      if 3000 < cleanText.length then
        (.badRequest "Text too long. Maximum 3000 characters allowed.", st)
      else if cleanText.length = 0 then (.badRequest "Text cannot be empty", st)
      else
        let voiceConfig := audioGetVoiceConfig (jsOrDefault req.language "English") req.voiceId
        let cacheKey := getAudioCacheKeyFree cleanText voiceConfig.voiceId voiceConfig.languageCode
        match st.audioCache cacheKey with
        | some cachedAudio =>
          (.ok { audioBase64 := cachedAudio.audioBase64, voiceUsed := voiceConfig.voiceId,
                 language := voiceConfig.languageCode, duration := cachedAudio.duration,
                 cached := true, usingFallback := none, fallbackMessage := none,
                 stats := some ⟨st.audioApiCallCount, st.audioCacheHitCount + 1⟩ },
           { st with audioCacheHitCount := st.audioCacheHitCount + 1 })
        | none =>
          let ssmlText := buildSSML_audio cleanText
          if 6000 < ssmlText.length then
            (.badRequest "Text with SSML formatting exceeds maximum length", st)
          else
            match polly ssmlText with
            | none => (.serverError "Failed to generate audio", st)
            | some audioBase64 =>
              let duration := estimateDuration cleanText
              (.ok { audioBase64 := audioBase64, voiceUsed := voiceConfig.voiceId,
                     language := voiceConfig.languageCode, duration := duration,
                     cached := false,
                     usingFallback := some voiceConfig.usingFallback,
                     fallbackMessage :=
                       if voiceConfig.usingFallback then
                         some ("Audio generated in Hindi as " ++ voiceConfig.originalLanguage
                           ++ " is not yet supported by AWS Polly")
                       else none,
                     stats := some ⟨st.audioApiCallCount + 1, st.audioCacheHitCount⟩ },
               { st with
                   audioCache := cacheSet st.audioCache cacheKey ⟨audioBase64, duration⟩,
                   audioApiCallCount := st.audioApiCallCount + 1 })

structure Lesson where
  title : String
  introduction : String
  explanation : String
  analogy : String
  recap : String
  quiz : String
  language : String
  grade : Int
  timestamp : String
deriving DecidableEq, Repr

/-- The audio result of the lesson route (also what its audio cache
    stores). -/
structure LessonAudio where
  audioBase64 : String
  voiceUsed : String
  languageCode : String
  isFallback : Option Bool
  cached : Bool
deriving DecidableEq, Repr

structure LessonVoiceCfg where
  voiceId : String
  languageCode : String
  engine : String
  isFallback : Option Bool
deriving DecidableEq, Repr

/-- lesson.js lines 70-83: getVoiceConfig — the two native configs carry no
    isFallback key; every other language falls back to the Hindi code with
    the isFallback flag set. -/
def lessonGetVoiceConfig (language : String) : LessonVoiceCfg :=
  if language = "English" then ⟨"Aditi", "en-IN", "standard", none⟩
  else if language = "Hindi" then ⟨"Aditi", "hi-IN", "standard", none⟩
  else ⟨"Aditi", "hi-IN", "standard", some (language != "English" && language != "Hindi")⟩

structure LessonSt where
  lessonCache : String → Option Lesson
  audioCache : String → Option LessonAudio
  apiCallCount : Nat
  cacheHitCount : Nat
  audioApiCalls : Nat
  audioCacheHits : Nat

/-- lesson.js lines 58-65: validateInput(topic, grade, language). -/
def validateInput (topic : String) (grade : Int) (language : String) : List String :=
  (if topic = "" ∨ (jsTrim topic).length = 0 then ["Topic cannot be empty"] else [])
  ++ (if 200 < topic.length then ["Topic too long (max 200 characters)"] else [])
  ++ (if grade < 1 ∨ 12 < grade then ["Grade must be between 1 and 12"] else [])
  ++ (if !(VALID_LANGUAGES.contains language) then
        ["Language must be one of: English, Hindi, Marathi, Tamil, Telugu, Kannada, Bengali, Gujarati, Malayalam"]
      else [])

/-- lesson.js lines 114-178: generateAudioForText(text, language, cacheKey)
    with the lesson-route audio cache; the speech collaborator maps the SSML
    document to the base64 audio, none modelling a thrown error (which the
    callers catch). Both call sites pass a cache key. -/
def generateAudioForText (polly : String → Option String) (text lang cacheKey : String)
    (st : LessonSt) : Option LessonAudio × LessonSt :=
  match st.audioCache cacheKey with
  | some cached =>
    (some { cached with cached := true },
     { st with audioCacheHits := st.audioCacheHits + 1 })
  | none =>
    let voiceConfig := lessonGetVoiceConfig lang
    let audioText := if 3000 < text.length then text.take 3000 ++ "..." else text
    let ssmlText := buildSSML_lesson audioText
    match polly ssmlText with
    | none => (none, st)
    | some audioBase64 =>
      let result : LessonAudio :=
        ⟨audioBase64, voiceConfig.voiceId, voiceConfig.languageCode, voiceConfig.isFallback, false⟩
      (some result,
       { st with audioCache := cacheSet st.audioCache cacheKey result,
                 audioApiCalls := st.audioApiCalls + 1 })

/-- lesson.js lines 469-471. -/
def generateFallbackQuiz (topic : String) (grade : Int) (language : String) : String :=
  "Question 1: " ++ topic ++ " is important. True or False?\nAnswer: True\n\nQuestion 2: What describes "
  ++ topic ++ "?\nA) Important concept\nB) Unrelated\nC) Advanced only\nD) None\nAnswer: A\n\nQuestion 3: How to apply "
  ++ topic ++ "?\nAnswer: Explain practical uses."

/-- lesson.js lines 473-475. -/
def generateFallbackContent (topic : String) (grade : Int) (language : String) : String :=
  "Let's learn about " ++ topic ++ ".\n\n" ++ topic ++ " is an important concept for grade "
  ++ toString grade ++ ".\n\nThink of " ++ topic ++ " in everyday life.\n\nIn summary, "
  ++ topic ++ " helps students learn."

/-- lesson.js lines 237-259: the two-attempt retry loop, collapsed against a
    deterministic generator: a throw on both attempts propagates (none); a
    result shorter than 100 characters on both attempts gives the canned
    fallback content. -/
def resolveLessonContent (genResult : Option String) (topic : String) (grade : Int)
    (language : String) : Option String :=
  match genResult with
  | none => none
  | some s =>
    some (if s.length < 100 then generateFallbackContent topic grade language else s)

structure LessonStats where
  lessonApiCalls : Nat
  lessonCacheHits : Nat
  audioApiCalls : Nat
  audioCacheHits : Nat
deriving DecidableEq, Repr

/-- The JSON success payload of the lesson route. The source object carries
    exactly the keys lesson, audio, cached and stats: the audioError field
    records the absence of any audio-error key and is always none. -/
structure LessonOkResp where
  lesson : Lesson
  audio : Option LessonAudio
  cached : Bool
  stats : LessonStats
  audioError : Option String
deriving DecidableEq, Repr

inductive LessonOut where
  | badRequestTopic
  | validationErr (errors : List String)
  | serverErr (error : String)
  | ok (r : LessonOkResp)
deriving DecidableEq, Repr

/-- Success-payload projection of a lesson-route outcome. -/
def okResp : LessonOut → Option LessonOkResp
  | .ok r => some r
  | _ => none

structure LessonReq where
  topic : String
  grade : GradeField
  language : Option String

/-- lesson.js lines 266-273: the lesson record built on a cache miss. -/
def builtLesson (quizGen : String → Int → String → Option String) (now topic : String)
    (gradeLevel : Int) (lang : String) (content : String) : Lesson :=
  let parsedLesson := parseLesson content topic gradeLevel
  { title := topic ++ " - Grade " ++ toString gradeLevel
    introduction := parsedLesson.introduction
    explanation := parsedLesson.explanation
    analogy := parsedLesson.analogy
    recap := parsedLesson.recap
    quiz := (quizGen topic gradeLevel lang).getD (generateFallbackQuiz topic gradeLevel lang)
    language := lang
    grade := gradeLevel
    timestamp := now }

/-- lesson.js lines 203-232: the cache-hit branch — count the hit, attempt
    the dependent audio (cached independently), answer cached = true. -/
def lessonHitResult (polly : String → Option String) (topic : String) (gradeLevel : Int)
    (lang : String) (cachedLesson : Lesson) (st : LessonSt) : LessonOut × LessonSt :=
  let st1 := { st with cacheHitCount := st.cacheHitCount + 1 }
  let res := generateAudioForText polly
    (cachedLesson.title ++ ". " ++ cachedLesson.introduction ++ " " ++ cachedLesson.explanation)
    lang (getAudioCacheKeyLesson topic gradeLevel lang) st1
  (.ok { lesson := cachedLesson, audio := res.1, cached := true,
         stats := ⟨res.2.apiCallCount, res.2.cacheHitCount, res.2.audioApiCalls, res.2.audioCacheHits⟩,
         audioError := none }, res.2)

/-- lesson.js lines 261-303: the miss branch — build and store the lesson,
    count the call, attempt the auto-audio, answer cached = false. -/
def lessonMissResult (quizGen : String → Int → String → Option String)
    (polly : String → Option String) (now topic : String) (gradeLevel : Int) (lang : String)
    (content : String) (st : LessonSt) : LessonOut × LessonSt :=
  let lesson := builtLesson quizGen now topic gradeLevel lang content
  let st1 := { st with
    lessonCache := cacheSet st.lessonCache (getLessonCacheKey topic gradeLevel lang) lesson,
    apiCallCount := st.apiCallCount + 1 }
  let res := generateAudioForText polly
    (lesson.title ++ ". " ++ lesson.introduction ++ " " ++ lesson.explanation)
    lang (getAudioCacheKeyLesson topic gradeLevel lang) st1
  (.ok { lesson := lesson, audio := res.1, cached := false,
         stats := ⟨res.2.apiCallCount, res.2.cacheHitCount, res.2.audioApiCalls, res.2.audioCacheHits⟩,
         audioError := none }, res.2)

/-- lesson.js lines 194-303: the route body after grade and language
    defaulting — validate, look the lesson up, and take the hit or miss
    branch. -/
def handleLessonCore (gen quizGen : String → Int → String → Option String)
    (polly : String → Option String) (now topic : String) (gradeLevel : Int) (lang : String)
    (st : LessonSt) : LessonOut × LessonSt :=
  let validationErrors := validateInput topic gradeLevel lang
  if validationErrors ≠ [] then (.validationErr validationErrors, st)
  else
    match st.lessonCache (getLessonCacheKey topic gradeLevel lang) with
    | some cachedLesson => lessonHitResult polly topic gradeLevel lang cachedLesson st
    | none =>
      match resolveLessonContent (gen topic gradeLevel lang) topic gradeLevel lang with
      | none => (.serverErr "Failed to generate lesson", st)
      | some lessonContent =>
        lessonMissResult quizGen polly now topic gradeLevel lang lessonContent st

/-- lesson.js lines 183-192: the topic presence check and the defaulting
    gradeLevel = parseInt(grade) or 6, lang = language or English. -/
def handleLesson (gen quizGen : String → Int → String → Option String)
    (polly : String → Option String) (now : String) (req : LessonReq) (st : LessonSt) :
    LessonOut × LessonSt :=
  if req.topic = "" then (.badRequestTopic, st)
  else handleLessonCore gen quizGen polly now req.topic (jsGradeLevel req.grade)
    (jsOrDefault req.language "English") st

/-! ## Theorems -/

theorem toInt32_emod (a : Int) : toInt32 a % 4294967296 = a % 4294967296 := by
  unfold toInt32; split <;> omega

theorem toInt32_congr {a b : Int} (h : a % 4294967296 = b % 4294967296) :
    toInt32 a = toInt32 b := by
  unfold toInt32; rw [h]

theorem simpleHashLoop_eq_poly : ∀ (cs : List Char) (h : Int),
    simpleHashLoop cs (toInt32 h) = toInt32 (polyLoop cs h)
  | [], h => rfl
  | c :: cs, h => by
    show simpleHashLoop cs (toInt32 (toInt32 (toInt32 h * 32) - toInt32 h + c.toNat))
        = toInt32 (polyLoop cs (h * 31 + c.toNat))
    rw [toInt32_congr (a := toInt32 (toInt32 h * 32) - toInt32 h + c.toNat)
      (b := h * 31 + c.toNat) (by
        have h1 := toInt32_emod h
        have h2 := toInt32_emod (toInt32 h * 32)
        omega)]
    exact simpleHashLoop_eq_poly cs (h * 31 + c.toNat)

theorem polyLoop_congr : ∀ (cs : List Char) {a b : Int},
    a % 4294967296 = b % 4294967296 →
    polyLoop cs a % 4294967296 = polyLoop cs b % 4294967296
  | [], _, _, h => h
  | c :: cs, a, b, h => polyLoop_congr cs (by omega)

theorem specHash_fold_eq_poly : ∀ (cs : List Char) (h : Nat),
    ((cs.foldl (fun h c => (h * 31 + c.toNat) % 4294967296) h : Nat) : Int) % 4294967296
      = polyLoop cs (h : Int) % 4294967296
  | [], h => rfl
  | c :: cs, h => by
    show ((cs.foldl (fun h c => (h * 31 + c.toNat) % 4294967296)
        ((h * 31 + c.toNat) % 4294967296) : Nat) : Int) % 4294967296
      = polyLoop cs ((h : Int) * 31 + c.toNat) % 4294967296
    rw [specHash_fold_eq_poly cs ((h * 31 + c.toNat) % 4294967296)]
    apply polyLoop_congr
    push_cast
    omega

/-- C1, amended: for every request text, the digest the audio route computes
    (it hashes the trimmed text, with no lower-casing) equals the reference
    algorithm of the spec, where the 32-bit word is read as a signed
    two-complement integer before taking the absolute value; in particular
    the digest of "hello" is the reference digest of "hello". -/
theorem simpleHash_eq_specRefDigest :
    (∀ s : String, simpleHash (jsTrim s) = specRefDigest (jsTrim s))
      ∧ simpleHash "hello" = specRefDigest "hello" := by
  have key : ∀ t : String, simpleHash t = specRefDigest t := by
    intro t
    have h0 : (0 : Int) = toInt32 0 := by decide
    have hcore : simpleHashLoop t.data 0
        = toInt32 ((t.data.foldl (fun h c => (h * 31 + c.toNat) % 4294967296) 0 : Nat) : Int) :=
      calc simpleHashLoop t.data 0
          = simpleHashLoop t.data (toInt32 0) := by rw [← h0]
        _ = toInt32 (polyLoop t.data 0) := simpleHashLoop_eq_poly t.data 0
        _ = toInt32 ((t.data.foldl (fun h c => (h * 31 + c.toNat) % 4294967296) 0 : Nat) : Int) := by
            apply toInt32_congr
            rw [specHash_fold_eq_poly t.data 0]
            norm_num
    exact congrArg (fun z : Int => natToBase36 z.natAbs) hcore
  exact ⟨fun s => key (jsTrim s), key "hello"⟩

/-- C1 counterexample: the claim states the hash runs over the lower-cased
    and trimmed text; the route hashes the trimmed text without lower-casing,
    so on the input "Hello" the digest differs from the claimed reference. -/
theorem simpleHash_not_lowercased :
    simpleHash (jsTrim "Hello") ≠ specRefDigest (jsToLower (jsTrim "Hello")) := by
  decide

theorem strDataAppend (s t : String) : (s ++ t).data = s.data ++ t.data := by
  cases s; cases t; rfl

/-- C2, amended: the lesson key is the prefix, lower-cased/trimmed topic,
    grade and lower-cased language joined by the separator; the diagram key
    joins the prefix, lower-cased/trimmed topic, grade and the style
    identifier (verbatim) — the language is not part of the diagram key. -/
theorem cacheKey_concatenation :
    (∀ (t : String) (g : Int) (l : String),
      getLessonCacheKey t g l = specDeriveKey "lesson" t g l)
    ∧ (∀ (t : String) (g : Int) (s : String),
      getDiagramCacheKey t g s = specDeriveKeyStyle "img" t g s) := by
  refine ⟨fun t g l => ?_, fun t g s => ?_⟩ <;>
    · apply String.ext
      simp only [getLessonCacheKey, getDiagramCacheKey, specDeriveKey,
        specDeriveKeyStyle, joinSep, strDataAppend, List.append_assoc]
      rfl

/-- C2 counterexample: for the diagram request with topic "cell", grade 6,
    language "Hindi" and style "flow", the derived diagram key ends with the
    style, not with the lower-cased language as the claim states. -/
theorem diagramKey_not_language :
    getDiagramCacheKey "cell" 6 "flow" ≠ specDeriveKey "img" "cell" 6 "Hindi" := by
  decide

theorem splitLastUnd : ∀ {x : List Char} {y a b : List Char}, '_' ∉ a → '_' ∉ b →
    x ++ '_' :: a = y ++ '_' :: b → x = y ∧ a = b := by
  intro x
  induction x with
  | nil =>
    intro y a b ha hb h
    cases y with
    | nil =>
      simp only [List.nil_append] at h
      exact ⟨rfl, by injection h⟩
    | cons d ys =>
      simp only [List.nil_append, List.cons_append] at h
      injection h with h1 h2
      exact absurd (h2 ▸ (by simp : '_' ∈ ys ++ '_' :: b)) ha
  | cons c xs ih =>
    intro y a b ha hb h
    cases y with
    | nil =>
      simp only [List.nil_append, List.cons_append] at h
      injection h with h1 h2
      exact absurd ((h2.symm) ▸ (by simp : '_' ∈ xs ++ '_' :: a)) hb
    | cons d ys =>
      simp only [List.cons_append] at h
      injection h with h1 h2
      obtain ⟨hxy, hab⟩ := ih ha hb h2
      exact ⟨by rw [h1, hxy], hab⟩

theorem natRepr13_inj : ∀ m : Nat, m < 13 → ∀ n : Nat, n < 13 →
    Nat.repr m = Nat.repr n → m = n := by decide

theorem natRepr13_noUnd : ∀ m : Nat, m < 13 → '_' ∉ (Nat.repr m).data := by decide

theorem validLang_lower_inj : ∀ l₁ ∈ VALID_LANGUAGES, ∀ l₂ ∈ VALID_LANGUAGES,
    jsToLower l₁ = jsToLower l₂ → l₁ = l₂ := by decide

theorem validLang_noUnd : ∀ l ∈ VALID_LANGUAGES, '_' ∉ (jsToLower l).data := by decide

theorem intToString_nonneg (g : Int) (hg : 0 ≤ g) : toString g = Nat.repr g.toNat := by
  obtain ⟨n, rfl⟩ := Int.eq_ofNat_of_zero_le hg
  rfl

theorem lessonKey_data (t : String) (g : Int) (l : String) :
    (getLessonCacheKey t g l).data
      = ("lesson_".data ++ ((jsTrim (jsToLower t)).data ++ '_' :: (toString g).data))
          ++ '_' :: (jsToLower l).data := by
  simp only [getLessonCacheKey, strDataAppend, List.append_assoc]
  rfl

/-- C3: over validated inputs (grade between 1 and 12, language in the
    supported list), lesson-key derivation is deterministic; topics with equal
    lower-cased/trimmed normal forms give equal keys; and distinct normalized
    (topic, grade, language) triples give distinct keys. -/
theorem lessonKey_pure_normalized_injective
    (t₁ t₂ : String) (g₁ g₂ : Int) (l₁ l₂ : String)
    (hg₁ : 1 ≤ g₁) (hg₁' : g₁ ≤ 12) (hg₂ : 1 ≤ g₂) (hg₂' : g₂ ≤ 12)
    (hl₁ : l₁ ∈ VALID_LANGUAGES) (hl₂ : l₂ ∈ VALID_LANGUAGES) :
    (getLessonCacheKey t₁ g₁ l₁ = getLessonCacheKey t₁ g₁ l₁)
    ∧ (jsTrim (jsToLower t₁) = jsTrim (jsToLower t₂) →
        getLessonCacheKey t₁ g₁ l₁ = getLessonCacheKey t₂ g₁ l₁)
    ∧ ((jsTrim (jsToLower t₁), g₁, l₁) ≠ (jsTrim (jsToLower t₂), g₂, l₂) →
        getLessonCacheKey t₁ g₁ l₁ ≠ getLessonCacheKey t₂ g₂ l₂) := by
  refine ⟨rfl, fun h => by unfold getLessonCacheKey; rw [h], fun hne hkey => hne ?_⟩
  have hdata := congrArg String.data hkey
  rw [lessonKey_data, lessonKey_data] at hdata
  have hGu₁ : '_' ∉ (toString g₁).data := by
    rw [intToString_nonneg g₁ (by omega)]
    exact natRepr13_noUnd g₁.toNat (by omega)
  have hGu₂ : '_' ∉ (toString g₂).data := by
    rw [intToString_nonneg g₂ (by omega)]
    exact natRepr13_noUnd g₂.toNat (by omega)
  obtain ⟨hA, hL⟩ := splitLastUnd (validLang_noUnd l₁ hl₁) (validLang_noUnd l₂ hl₂) hdata
  have hB := List.append_cancel_left hA
  obtain ⟨hT, hG⟩ := splitLastUnd hGu₁ hGu₂ hB
  have hTeq : jsTrim (jsToLower t₁) = jsTrim (jsToLower t₂) := String.ext hT
  have hGeq : g₁ = g₂ := by
    have hGs : toString g₁ = toString g₂ := String.ext hG
    rw [intToString_nonneg g₁ (by omega), intToString_nonneg g₂ (by omega)] at hGs
    have := natRepr13_inj g₁.toNat (by omega) g₂.toNat (by omega) hGs
    omega
  have hLeq : l₁ = l₂ := validLang_lower_inj l₁ hl₁ l₂ hl₂ (String.ext hL)
  rw [hTeq, hGeq, hLeq]

theorem isPrefixOf_append_self : ∀ (p x : List Char), p.isPrefixOf (p ++ x) = true := by
  intro p x
  induction p with
  | nil => simp [List.isPrefixOf]
  | cons c cs ih => simp [List.isPrefixOf, ih]

theorem isPrefixOf_head_ne {m c : Char} {pat' rest : List Char} (h : m ≠ c) :
    (m :: pat').isPrefixOf (c :: rest) = false := by
  simp [List.isPrefixOf, h]

theorem matchBreak_not_lt {c : Char} (cs : List Char) (hc : c ≠ '<') :
    matchBreak (c :: cs) = none := by
  unfold matchBreak
  rw [show breakOpen.isPrefixOf (c :: cs) = false from
    isPrefixOf_head_ne (fun h => hc h.symm)]
  simp

theorem takeWhile_append_stop (mid : List Char) (x : Char) (r : List Char)
    (hmid : '>' ∉ mid) (hx : x = '>') :
    (mid ++ x :: r).takeWhile (fun c => c ≠ '>') = mid := by
  induction mid with
  | nil => simp [List.takeWhile, hx]
  | cons c cs ih =>
    have hc : c ≠ '>' := fun h => hmid (h ▸ List.mem_cons_self c cs)
    simp only [List.cons_append, List.takeWhile_cons]
    rw [if_pos (by simpa using hc)]
    rw [ih (fun h => hmid (List.mem_cons_of_mem c h))]

theorem dropWhile_append_stop (mid : List Char) (r : List Char) (hmid : '>' ∉ mid) :
    (mid ++ '>' :: r).dropWhile (fun c => c ≠ '>') = '>' :: r := by
  induction mid with
  | nil => simp [List.dropWhile]
  | cons c cs ih =>
    have hc : c ≠ '>' := fun h => hmid (h ▸ List.mem_cons_self c cs)
    simp only [List.cons_append, List.dropWhile_cons]
    rw [if_pos (by simpa using hc)]
    exact ih (fun h => hmid (List.mem_cons_of_mem c h))

theorem matchBreak_at_tag (mid w : List Char) (hmid : '>' ∉ mid) :
    matchBreak (breakOpen ++ (mid ++ '>' :: w)) = some (mid, w) := by
  unfold matchBreak
  rw [isPrefixOf_append_self]
  have hdrop : (breakOpen ++ (mid ++ '>' :: w)).drop 6 = mid ++ '>' :: w :=
    List.drop_left breakOpen _
  rw [if_pos rfl, hdrop, dropWhile_append_stop mid w hmid,
    takeWhile_append_stop mid '>' w hmid rfl]
  rfl

theorem findBreakTagsAux_skip : ∀ (a rest : List Char) (fuel : Nat), '<' ∉ a →
    findBreakTagsAux (a.length + fuel) (a ++ rest) = findBreakTagsAux fuel rest := by
  intro a
  induction a with
  | nil =>
    intro rest fuel _
    rw [List.nil_append, List.length_nil, Nat.zero_add]
  | cons c a' ih =>
    intro rest fuel ha
    have hc : c ≠ '<' := fun h => ha (h ▸ List.mem_cons_self c a')
    have hl : (c :: a').length + fuel = (a'.length + fuel) + 1 := by
      simp [Nat.add_assoc, Nat.add_comm, Nat.add_left_comm]
    rw [List.cons_append, hl]
    show findBreakTagsAux ((a'.length + fuel) + 1) (c :: (a' ++ rest)) = _
    simp only [findBreakTagsAux]
    rw [matchBreak_not_lt _ hc]
    exact ih rest fuel (fun h => ha (List.mem_cons_of_mem c h))

theorem findBreakTagsAux_nil : ∀ (fuel : Nat) (w : List Char), '<' ∉ w →
    findBreakTagsAux fuel w = [] := by
  intro fuel
  induction fuel with
  | zero => intro w _; rfl
  | succ fuel ih =>
    intro w hw
    cases w with
    | nil => rfl
    | cons c cs =>
      have hc : c ≠ '<' := fun h => hw (h ▸ List.mem_cons_self c cs)
      simp only [findBreakTagsAux]
      rw [matchBreak_not_lt _ hc]
      exact ih cs (fun h => hw (List.mem_cons_of_mem c h))

/-- The scanner finds exactly the one embedded tag. -/
theorem findBreakTags_single (A mid w : List Char) (hA : '<' ∉ A) (hw : '<' ∉ w)
    (hmid : '>' ∉ mid) :
    findBreakTags (A ++ (breakOpen ++ (mid ++ '>' :: w))) = [breakOpen ++ mid ++ ['>']] := by
  unfold findBreakTags
  rw [show (A ++ (breakOpen ++ (mid ++ '>' :: w))).length
      = A.length + ((mid.length + 6 + w.length) + 1) from by simp [breakOpen]; omega]
  rw [findBreakTagsAux_skip A _ _ hA]
  have hcons : breakOpen ++ (mid ++ '>' :: w)
      = '<' :: (['b', 'r', 'e', 'a', 'k'] ++ (mid ++ '>' :: w)) := rfl
  rw [hcons]
  simp only [findBreakTagsAux]
  rw [← hcons]
  rw [matchBreak_at_tag mid w hmid]
  show (breakOpen ++ mid ++ ['>']) :: findBreakTagsAux (mid.length + 6 + w.length) w = _
  rw [findBreakTagsAux_nil _ w hw]

theorem replaceFirst_marker : ∀ (A : List Char) {m : Char} {pat' repl rest : List Char},
    m ∉ A →
    replaceFirst (A ++ (m :: pat') ++ rest) (m :: pat') repl = A ++ repl ++ rest := by
  intro A
  induction A with
  | nil =>
    intro m pat' repl rest _
    show (if (m :: pat').isPrefixOf ((m :: pat') ++ rest) then _ else _) = _
    rw [isPrefixOf_append_self]
    simp only [if_true, List.nil_append]
    congr 1
    exact List.drop_left (m :: pat') rest
  | cons c A' ih =>
    intro m pat' repl rest hm
    have hc : m ≠ c := fun h => hm (h ▸ List.mem_cons_self c A')
    show (if (m :: pat').isPrefixOf (c :: (A' ++ (m :: pat') ++ rest)) then _ else _) = _
    rw [isPrefixOf_head_ne hc]
    simp only [Bool.false_eq_true, if_false, List.cons_append]
    exact congrArg (fun l => c :: l) (ih (fun h => hm (List.mem_cons_of_mem c h)))

theorem replaceAllChar_id {t : Char} {r x : List Char} (h : ∀ c ∈ x, c ≠ t) :
    replaceAllChar t r x = x := by
  induction x with
  | nil => rfl
  | cons c cs ih =>
    simp only [replaceAllChar, List.flatMap_cons]
    rw [if_neg (h c (List.mem_cons_self c cs))]
    simp only [List.singleton_append, List.cons.injEq, true_and]
    exact ih (fun d hd => h d (List.mem_cons_of_mem c hd))

theorem replaceAllChar_append (t : Char) (r x y : List Char) :
    replaceAllChar t r (x ++ y) = replaceAllChar t r x ++ replaceAllChar t r y := by
  simp [replaceAllChar]

theorem escapeXml_append (x y : List Char) :
    escapeXml (x ++ y) = escapeXml x ++ escapeXml y := by
  simp [escapeXml, replaceAllChar_append]

theorem escapeXml_plain {x : List Char} (h : ∀ c ∈ x, plainChar c = true) :
    escapeXml x = x := by
  have hne : ∀ (t : Char), t ∈ ['&', '<', '>', '"', '\''] → ∀ c ∈ x, c ≠ t := by
    intro t ht c hc he
    have := h c hc
    subst he
    simp only [plainChar] at this
    fin_cases ht <;> simp_all
  unfold escapeXml
  rw [replaceAllChar_id (hne '&' (by simp) )]
  rw [replaceAllChar_id (hne '<' (by simp) )]
  rw [replaceAllChar_id (hne '>' (by simp) )]
  rw [replaceAllChar_id (hne '"' (by simp) )]
  rw [replaceAllChar_id (hne '\'' (by simp) )]

/-- The escaped-and-restored core on a text with one ampersand and one break
    tag embedded in plain surroundings. -/
theorem ssmlCore_spec (u v w mid : List Char)
    (hu : ∀ c ∈ u, plainChar c = true) (hv : ∀ c ∈ v, plainChar c = true)
    (hw : ∀ c ∈ w, plainChar c = true)
    (hmid : '>' ∉ mid) :
    ssmlCore (u ++ '&' :: v ++ (breakOpen ++ mid ++ ['>']) ++ w)
      = u ++ "&amp;".data ++ v ++ (breakOpen ++ mid ++ ['>']) ++ w := by
  have hlt : ∀ {x : List Char}, (∀ c ∈ x, plainChar c = true) → '<' ∉ x := by
    intro x hx h
    have := hx '<' h
    simp [plainChar] at this
  have hund : ∀ {x : List Char}, (∀ c ∈ x, plainChar c = true) → '_' ∉ x := by
    intro x hx h
    have := hx '_' h
    simp [plainChar] at this
  have hAlt : '<' ∉ u ++ '&' :: v := by
    intro h
    rcases List.mem_append.mp h with h | h
    · exact hlt hu h
    · rcases List.mem_cons.mp h with h | h
      · exact absurd h (by decide)
      · exact hlt hv h
  have htags : findBreakTags (u ++ '&' :: v ++ (breakOpen ++ mid ++ ['>']) ++ w)
      = [breakOpen ++ mid ++ ['>']] := by
    have := findBreakTags_single (u ++ '&' :: v) mid w hAlt (hlt hw) hmid
    rw [← this]
    congr 1
    simp
  have hund2 : '_' ∉ u ++ "&amp;".data ++ v := by
    intro h
    rcases List.mem_append.mp h with h | h
    · rcases List.mem_append.mp h with h | h
      · exact hund hu h
      · exact absurd h (by decide)
    · exact hund hv h
  have hph : placeholder 0 = '_' :: "_SSML_TAG_0__".data := by decide
  unfold ssmlCore
  rw [htags]
  show restoreTags (escapeXml (substTags _ [breakOpen ++ mid ++ ['>']] 0)) _ 0 = _
  have hsub : substTags (u ++ '&' :: v ++ (breakOpen ++ mid ++ ['>']) ++ w)
      [breakOpen ++ mid ++ ['>']] 0
      = (u ++ '&' :: v) ++ placeholder 0 ++ w := by
    show replaceFirst _ _ (placeholder 0) = _
    have hshape : u ++ '&' :: v ++ (breakOpen ++ mid ++ ['>']) ++ w
        = (u ++ '&' :: v) ++ ('<' :: ('b' :: 'r' :: 'e' :: 'a' :: 'k' :: (mid ++ ['>']))) ++ w := by
      simp [breakOpen]
    have htag : breakOpen ++ mid ++ ['>']
        = '<' :: ('b' :: 'r' :: 'e' :: 'a' :: 'k' :: (mid ++ ['>'])) := by
      simp [breakOpen]
    rw [hshape, htag]
    exact replaceFirst_marker (u ++ '&' :: v) hAlt
  rw [hsub]
  have hesc : escapeXml ((u ++ '&' :: v) ++ placeholder 0 ++ w)
      = (u ++ "&amp;".data ++ v) ++ placeholder 0 ++ w := by
    have hshape : (u ++ '&' :: v) ++ placeholder 0 ++ w
        = u ++ (['&'] ++ (v ++ (placeholder 0 ++ w))) := by simp
    rw [hshape, escapeXml_append, escapeXml_append, escapeXml_append, escapeXml_append]
    rw [escapeXml_plain hu, escapeXml_plain hv, escapeXml_plain hw]
    rw [show escapeXml ['&'] = "&amp;".data from by decide]
    rw [show escapeXml (placeholder 0) = placeholder 0 from by decide]
    simp
  rw [hesc]
  show replaceFirst _ (placeholder 0) _ = _
  rw [hph]
  rw [replaceFirst_marker (u ++ "&amp;".data ++ v) hund2]

/-- C7, amended: on a text whose ampersand lies outside the pause directive
    and whose surroundings are plain prose (no markup characters, no
    underscores, which would collide with the internal placeholders), both
    buildSSML variants escape the ampersand to its entity form, keep the
    pause directive character-for-character unchanged and unescaped, and wrap
    the result in the speak root with the prosody wrapper. The directive must
    not contain a dollar sign (the JS replacement-pattern escape). -/
theorem buildSSML_escape_and_preserve (u v w mid : List Char)
    (hu : ∀ c ∈ u, plainChar c = true) (hv : ∀ c ∈ v, plainChar c = true)
    (hw : ∀ c ∈ w, plainChar c = true) (hmid : '>' ∉ mid) (_hdollar : '$' ∉ mid) :
    buildSSML_lesson ⟨u ++ '&' :: v ++ (breakOpen ++ mid ++ ['>']) ++ w⟩
      = ⟨jsTrimList ("<speak><prosody rate=\"medium\" pitch=\"medium\">".data
          ++ (u ++ "&amp;".data ++ v ++ (breakOpen ++ mid ++ ['>']) ++ w)
          ++ "</prosody></speak>".data)⟩
    ∧ buildSSML_audio ⟨u ++ '&' :: v ++ (breakOpen ++ mid ++ ['>']) ++ w⟩
      = ⟨jsTrimList (ssmlPreAudio.data
          ++ (u ++ "&amp;".data ++ v ++ (breakOpen ++ mid ++ ['>']) ++ w)
          ++ ssmlPostAudio.data)⟩ := by
  have hcore := ssmlCore_spec u v w mid hu hv hw hmid
  constructor
  · unfold buildSSML_lesson
    rw [show (⟨u ++ '&' :: v ++ (breakOpen ++ mid ++ ['>']) ++ w⟩ : String).data
        = u ++ '&' :: v ++ (breakOpen ++ mid ++ ['>']) ++ w from rfl]
    rw [hcore]
  · unfold buildSSML_audio
    rw [show (⟨u ++ '&' :: v ++ (breakOpen ++ mid ++ ['>']) ++ w⟩ : String).data
        = u ++ '&' :: v ++ (breakOpen ++ mid ++ ['>']) ++ w from rfl]
    rw [hcore]

/-- C7 witness: a concrete narration text with an ampersand and one pause
    directive. -/
theorem buildSSML_escape_and_preserve_witness :
    buildSSML_lesson ⟨"Tom ".data ++ '&' :: " Jerry. ".data
        ++ (breakOpen ++ " time=\"800ms\"/".data ++ ['>']) ++ " The end.".data⟩
      = ⟨jsTrimList ("<speak><prosody rate=\"medium\" pitch=\"medium\">".data
          ++ ("Tom ".data ++ "&amp;".data ++ " Jerry. ".data
              ++ (breakOpen ++ " time=\"800ms\"/".data ++ ['>']) ++ " The end.".data)
          ++ "</prosody></speak>".data)⟩
    ∧ buildSSML_audio ⟨"Tom ".data ++ '&' :: " Jerry. ".data
        ++ (breakOpen ++ " time=\"800ms\"/".data ++ ['>']) ++ " The end.".data⟩
      = ⟨jsTrimList (ssmlPreAudio.data
          ++ ("Tom ".data ++ "&amp;".data ++ " Jerry. ".data
              ++ (breakOpen ++ " time=\"800ms\"/".data ++ ['>']) ++ " The end.".data)
          ++ ssmlPostAudio.data)⟩ :=
  buildSSML_escape_and_preserve "Tom ".data " Jerry. ".data " The end.".data
    " time=\"800ms\"/".data (by decide) (by decide) (by decide) (by decide) (by decide)

/-- C7 counterexample: when the only ampersand of the text sits inside the
    pause directive, the directive is protected whole, so no ampersand gets
    escaped — the output contains no entity at all, against the claim that
    every input holding a literal ampersand and a directive yields an output
    with the ampersand escaped. -/
theorem buildSSML_amp_inside_tag :
    ('&' ∈ "hi <break a=\"&\"/> bye".data)
    ∧ findBreakTags "hi <break a=\"&\"/> bye".data = ["<break a=\"&\"/>".data]
    ∧ jsIncludes (buildSSML_audio "hi <break a=\"&\"/> bye").data "&amp;".data = false := by
  decide

theorem getD_ne_nil {l : List (List Char)} (hmem : ∀ x ∈ l, x ≠ [])
    (i : Nat) (hi : i < l.length) : l.getD i [] ≠ [] := by
  rw [List.getD_eq_getElem?_getD, List.getElem?_eq_getElem hi]
  exact hmem _ (List.getElem_mem hi)

/-- C9: whatever the raw generator text, all four sections of the parsed
    lesson are non-empty strings — missing sections are padded with the
    placeholder sentence. -/
theorem parseLesson_sections_nonempty (rawText topic : String) (g : Int) :
    (parseLesson rawText topic g).introduction ≠ ""
    ∧ (parseLesson rawText topic g).explanation ≠ ""
    ∧ (parseLesson rawText topic g).analogy ≠ ""
    ∧ (parseLesson rawText topic g).recap ≠ "" := by
  unfold parseLesson
  dsimp only
  set paragraphs := (((jsSplitBlank rawText.data).map jsTrimList).filter
    (fun p => 30 < p.length) |>.map (fun p => jsTrimList (stripLabel p))).filter
    (fun p => 20 < p.length) with hpar
  set pad := "Content about ".data ++ topic.data ++ " for grade ".data
    ++ (toString g).data ++ ".".data with hpad
  set padded := paragraphs ++ List.replicate (4 - paragraphs.length) pad with hpadded
  have hmem : ∀ x ∈ padded, x ≠ [] := by
    intro x hx
    rcases List.mem_append.mp hx with hx | hx
    · have := (List.mem_filter.mp hx).2
      intro hnil
      rw [hnil] at this
      simp at this
    · rw [List.eq_of_mem_replicate hx]
      apply List.ne_nil_of_length_pos
      rw [hpad]
      simp
  have hlen : 4 ≤ padded.length := by
    rw [hpadded]
    simp [List.length_append, List.length_replicate]
    omega
  refine ⟨?_, ?_, ?_, ?_⟩ <;>
    · intro h
      have hx := congrArg String.data h
      first
      | exact getD_ne_nil hmem 0 (by omega) hx
      | exact getD_ne_nil hmem 1 (by omega) hx
      | exact getD_ne_nil hmem 2 (by omega) hx
      | exact getD_ne_nil hmem 3 (by omega) hx

/-- C5: a valid diagram request whose topic matches no visual keyword gets
    the success payload with a null image and the no-diagram message; the
    state is untouched and no cache or collaborator operation happens. -/
theorem diagram_relevance_gate (bedrockImage : String → String → Int → Option String)
    (req : DiagramReq) (st : DiagramSt)
    (htopic : req.topic ≠ "") (hlen : req.topic.length ≤ 200)
    (hstyle : VALID_STYLES.contains (jsOrDefault req.style "iconic") = true)
    (hneed : needsVisualDiagram req.topic = false) :
    handleDiagram bedrockImage req st
      = (.ok { imageBase64 := none, style := jsOrDefault req.style "iconic",
               message := some "This topic doesn't require a visual diagram",
               suggestion := some "Visual may not add significant value for this concept",
               cached := none, stats := none }, st, []) := by
  unfold handleDiagram
  rw [if_neg htopic, if_neg (by omega)]
  simp only [hstyle, hneed, Bool.not_true, Bool.not_false, Bool.false_eq_true,
    if_false, if_true]

/-- C5 witness: the concrete request "Classroom Etiquette" (no keyword
    match) against an arbitrary concrete state. -/
theorem diagram_relevance_gate_witness :
    handleDiagram (fun _ _ _ => some "IMG")
        ⟨"Classroom Etiquette", .num 7, some "English", none⟩
        ⟨fun _ => none, 3, 5⟩
      = (.ok { imageBase64 := none, style := "iconic",
               message := some "This topic doesn't require a visual diagram",
               suggestion := some "Visual may not add significant value for this concept",
               cached := none, stats := none }, ⟨fun _ => none, 3, 5⟩, []) :=
  diagram_relevance_gate (fun _ _ _ => some "IMG")
    ⟨"Classroom Etiquette", .num 7, some "English", none⟩ ⟨fun _ => none, 3, 5⟩
    (by decide) (by decide) (by decide) (by decide)

/-- C6 evidence: a Tamil narration request served from the audio cache
    carries neither usingFallback nor a fallback message (both keys are
    absent), while the first, uncached response carried both; so the claim
    fails exactly on cache-hit responses. -/
theorem audio_fallback_flag_dropped_on_cache_hit :
    (handleAudio (fun _ => some "B64") ⟨some "hello", some "Tamil", none⟩
        ⟨fun _ => none, 0, 0⟩).1
      = .ok { audioBase64 := "B64", voiceUsed := "Aditi", language := "hi-IN",
              duration := 1, cached := false, usingFallback := some true,
              fallbackMessage := some "Audio generated in Hindi as Tamil is not yet supported by AWS Polly",
              stats := some ⟨1, 0⟩ }
    ∧ (handleAudio (fun _ => some "B64") ⟨some "hello", some "Tamil", none⟩
        (handleAudio (fun _ => some "B64") ⟨some "hello", some "Tamil", none⟩
          ⟨fun _ => none, 0, 0⟩).2).1
      = .ok { audioBase64 := "B64", voiceUsed := "Aditi", language := "hi-IN",
              duration := 1, cached := true, usingFallback := none,
              fallbackMessage := none, stats := some ⟨1, 1⟩ } := by
  decide

theorem generateAudioForText_lessonCache (polly : String → Option String)
    (text lang cacheKey : String) (st : LessonSt) :
    (generateAudioForText polly text lang cacheKey st).2.lessonCache = st.lessonCache := by
  unfold generateAudioForText
  dsimp only
  split
  · rfl
  · split
    · rfl
    · rfl

theorem generateAudioForText_polly_fail (polly : String → Option String)
    (text lang cacheKey : String) (st : LessonSt) (hp : ∀ x, polly x = none)
    (hc : st.audioCache cacheKey = none) :
    generateAudioForText polly text lang cacheKey st = (none, st) := by
  unfold generateAudioForText
  rw [hc]
  dsimp only
  rw [hp]

theorem handleLessonCore_miss (gen quizGen : String → Int → String → Option String)
    (polly : String → Option String) (now topic : String) (gradeLevel : Int) (lang : String)
    (st : LessonSt) (s : String)
    (hval : validateInput topic gradeLevel lang = [])
    (hmiss : st.lessonCache (getLessonCacheKey topic gradeLevel lang) = none)
    (hs : gen topic gradeLevel lang = some s) :
    handleLessonCore gen quizGen polly now topic gradeLevel lang st
      = lessonMissResult quizGen polly now topic gradeLevel lang
          (if s.length < 100 then generateFallbackContent topic gradeLevel lang else s) st := by
  unfold handleLessonCore
  dsimp only
  rw [if_neg (fun h => h hval), hmiss, hs]
  rfl

theorem handleLessonCore_hit (gen quizGen : String → Int → String → Option String)
    (polly : String → Option String) (now topic : String) (gradeLevel : Int) (lang : String)
    (st : LessonSt) (L : Lesson)
    (hval : validateInput topic gradeLevel lang = [])
    (hhit : st.lessonCache (getLessonCacheKey topic gradeLevel lang) = some L) :
    handleLessonCore gen quizGen polly now topic gradeLevel lang st
      = lessonHitResult polly topic gradeLevel lang L st := by
  unfold handleLessonCore
  dsimp only
  rw [if_neg (fun h => h hval), hhit]

theorem lessonMissResult_lessonCache (quizGen : String → Int → String → Option String)
    (polly : String → Option String) (now topic : String) (gradeLevel : Int) (lang : String)
    (content : String) (st : LessonSt) :
    (lessonMissResult quizGen polly now topic gradeLevel lang content st).2.lessonCache
      = cacheSet st.lessonCache (getLessonCacheKey topic gradeLevel lang)
          (builtLesson quizGen now topic gradeLevel lang content) := by
  unfold lessonMissResult
  dsimp only
  rw [generateAudioForText_lessonCache]

/-- C4: with a deterministic generator that answers, a fresh cache for the
    key and no expiry in between, two identical lesson requests answer
    cached = false then cached = true, and both carry the same lesson. -/
theorem lesson_roundtrip_cached_flags (gen quizGen : String → Int → String → Option String)
    (polly : String → Option String) (now1 now2 : String) (req : LessonReq) (st : LessonSt)
    (htopic : req.topic ≠ "")
    (hval : validateInput req.topic (jsGradeLevel req.grade)
      (jsOrDefault req.language "English") = [])
    (hmiss : st.lessonCache (getLessonCacheKey req.topic (jsGradeLevel req.grade)
      (jsOrDefault req.language "English")) = none)
    (hgen : (gen req.topic (jsGradeLevel req.grade) (jsOrDefault req.language "English")).isSome) :
    ∃ r1 r2 : LessonOkResp,
      (handleLesson gen quizGen polly now1 req st).1 = .ok r1
      ∧ (handleLesson gen quizGen polly now2 req
          (handleLesson gen quizGen polly now1 req st).2).1 = .ok r2
      ∧ r1.cached = false ∧ r2.cached = true ∧ r2.lesson = r1.lesson := by
  obtain ⟨s, hs⟩ := Option.isSome_iff_exists.mp hgen
  set g := jsGradeLevel req.grade with hg
  set lang := jsOrDefault req.language "English" with hlang
  set content := if s.length < 100 then generateFallbackContent req.topic g lang else s
    with hcontent
  set L := builtLesson quizGen now1 req.topic g lang content with hL
  have hfirst : handleLesson gen quizGen polly now1 req st
      = lessonMissResult quizGen polly now1 req.topic g lang content st := by
    unfold handleLesson
    rw [if_neg htopic]
    exact handleLessonCore_miss gen quizGen polly now1 req.topic g lang st s hval hmiss hs
  have hcache2 : (handleLesson gen quizGen polly now1 req st).2.lessonCache
      (getLessonCacheKey req.topic g lang) = some L := by
    rw [hfirst, lessonMissResult_lessonCache]
    simp [cacheSet]
  have hsecond : handleLesson gen quizGen polly now2 req
      (handleLesson gen quizGen polly now1 req st).2
      = lessonHitResult polly req.topic g lang L
          (handleLesson gen quizGen polly now1 req st).2 := by
    unfold handleLesson
    rw [if_neg htopic]
    exact handleLessonCore_hit gen quizGen polly now2 req.topic g lang _ L hval hcache2
  refine ⟨?r1, ?r2, ?h1, ?h2, ?h3, ?h4, ?h5⟩
  case h1 => rw [hfirst]; exact rfl
  case h2 => rw [hsecond]; exact rfl
  case h3 => exact rfl
  case h4 => exact rfl
  case h5 => exact rfl

/-- C4 witness: a concrete deterministic generator and a fresh state. -/
theorem lesson_roundtrip_cached_flags_witness :
    ∃ r1 r2 : LessonOkResp,
      (handleLesson
          (fun _ _ _ => some "Let us learn about photosynthesis. It is the process plants use to turn light into food. It happens in leaves.")
          (fun _ _ _ => some "QUIZ") (fun _ => some "B64") "t1"
          ⟨"Photosynthesis", .num 7, some "English"⟩
          ⟨fun _ => none, fun _ => none, 0, 0, 0, 0⟩).1 = .ok r1
      ∧ (handleLesson
          (fun _ _ _ => some "Let us learn about photosynthesis. It is the process plants use to turn light into food. It happens in leaves.")
          (fun _ _ _ => some "QUIZ") (fun _ => some "B64") "t2"
          ⟨"Photosynthesis", .num 7, some "English"⟩
          (handleLesson
            (fun _ _ _ => some "Let us learn about photosynthesis. It is the process plants use to turn light into food. It happens in leaves.")
            (fun _ _ _ => some "QUIZ") (fun _ => some "B64") "t1"
            ⟨"Photosynthesis", .num 7, some "English"⟩
            ⟨fun _ => none, fun _ => none, 0, 0, 0, 0⟩).2).1 = .ok r2
      ∧ r1.cached = false ∧ r2.cached = true ∧ r2.lesson = r1.lesson :=
  lesson_roundtrip_cached_flags
    (fun _ _ _ => some "Let us learn about photosynthesis. It is the process plants use to turn light into food. It happens in leaves.")
    (fun _ _ _ => some "QUIZ") (fun _ => some "B64") "t1" "t2"
    ⟨"Photosynthesis", .num 7, some "English"⟩
    ⟨fun _ => none, fun _ => none, 0, 0, 0, 0⟩
    (by decide) (by decide) rfl rfl

theorem lessonHitResult_parts (polly : String → Option String) (topic : String)
    (gradeLevel : Int) (lang : String) (L : Lesson) (st : LessonSt) :
    ∃ r st', lessonHitResult polly topic gradeLevel lang L st = (.ok r, st')
      ∧ r.lesson = L ∧ r.cached = true ∧ r.audioError = none
      ∧ r.audio = (generateAudioForText polly
          (L.title ++ ". " ++ L.introduction ++ " " ++ L.explanation) lang
          (getAudioCacheKeyLesson topic gradeLevel lang)
          { st with cacheHitCount := st.cacheHitCount + 1 }).1 :=
  ⟨_, _, rfl, rfl, rfl, rfl, rfl⟩

theorem lessonMissResult_parts (quizGen : String → Int → String → Option String)
    (polly : String → Option String) (now topic : String) (gradeLevel : Int) (lang : String)
    (content : String) (st : LessonSt) :
    ∃ r st', lessonMissResult quizGen polly now topic gradeLevel lang content st = (.ok r, st')
      ∧ r.lesson = builtLesson quizGen now topic gradeLevel lang content
      ∧ r.cached = false ∧ r.audioError = none
      ∧ r.audio = (generateAudioForText polly
          ((builtLesson quizGen now topic gradeLevel lang content).title ++ ". "
            ++ (builtLesson quizGen now topic gradeLevel lang content).introduction ++ " "
            ++ (builtLesson quizGen now topic gradeLevel lang content).explanation) lang
          (getAudioCacheKeyLesson topic gradeLevel lang)
          { st with
              lessonCache := cacheSet st.lessonCache (getLessonCacheKey topic gradeLevel lang)
                (builtLesson quizGen now topic gradeLevel lang content),
              apiCallCount := st.apiCallCount + 1 }).1 :=
  ⟨_, _, rfl, rfl, rfl, rfl, rfl⟩

/-- C8, amended: when lesson generation succeeds (or the lesson is cached)
    but audio synthesis throws, the request still succeeds: the response is
    a success response with the lesson payload and a null audio field; the
    source emits no separate audio-error key (audioError is always none). -/
theorem lesson_audio_failure_nonfatal (gen quizGen : String → Int → String → Option String)
    (polly : String → Option String) (now : String) (req : LessonReq) (st : LessonSt)
    (htopic : req.topic ≠ "")
    (hval : validateInput req.topic (jsGradeLevel req.grade)
      (jsOrDefault req.language "English") = [])
    (hpolly : ∀ x, polly x = none)
    (haudio : st.audioCache (getAudioCacheKeyLesson req.topic (jsGradeLevel req.grade)
      (jsOrDefault req.language "English")) = none)
    (hbranch : (∃ L, st.lessonCache (getLessonCacheKey req.topic (jsGradeLevel req.grade)
        (jsOrDefault req.language "English")) = some L)
      ∨ (gen req.topic (jsGradeLevel req.grade) (jsOrDefault req.language "English")).isSome) :
    ∃ r : LessonOkResp,
      (handleLesson gen quizGen polly now req st).1 = .ok r
      ∧ r.audio = none ∧ r.audioError = none := by
  set g := jsGradeLevel req.grade with hg
  set lang := jsOrDefault req.language "English" with hlang
  cases hc : st.lessonCache (getLessonCacheKey req.topic g lang) with
  | some L =>
    have hcall : handleLesson gen quizGen polly now req st
        = lessonHitResult polly req.topic g lang L st := by
      unfold handleLesson
      rw [if_neg htopic]
      exact handleLessonCore_hit gen quizGen polly now req.topic g lang st L hval hc
    have hfail : generateAudioForText polly
        (L.title ++ ". " ++ L.introduction ++ " " ++ L.explanation) lang
        (getAudioCacheKeyLesson req.topic g lang)
        { st with cacheHitCount := st.cacheHitCount + 1 }
        = (none, { st with cacheHitCount := st.cacheHitCount + 1 }) :=
      generateAudioForText_polly_fail _ _ _ _ _ hpolly haudio
    obtain ⟨r, st', he, _hl, _hcach, herr, haud⟩ :=
      lessonHitResult_parts polly req.topic g lang L st
    refine ⟨r, ?_, ?_, herr⟩
    · rw [hcall, he]
    · rw [haud, hfail]
  | none =>
    have hgen : (gen req.topic g lang).isSome := by
      rcases hbranch with ⟨L, hL⟩ | hgen
      · rw [hc] at hL
        exact absurd hL (by simp)
      · exact hgen
    obtain ⟨s, hs⟩ := Option.isSome_iff_exists.mp hgen
    set content := if s.length < 100 then generateFallbackContent req.topic g lang else s
      with hcontent
    have hcall : handleLesson gen quizGen polly now req st
        = lessonMissResult quizGen polly now req.topic g lang content st := by
      unfold handleLesson
      rw [if_neg htopic]
      exact handleLessonCore_miss gen quizGen polly now req.topic g lang st s hval hc hs
    have hfail : generateAudioForText polly
        ((builtLesson quizGen now req.topic g lang content).title ++ ". "
          ++ (builtLesson quizGen now req.topic g lang content).introduction ++ " "
          ++ (builtLesson quizGen now req.topic g lang content).explanation) lang
        (getAudioCacheKeyLesson req.topic g lang)
        { st with
            lessonCache := cacheSet st.lessonCache (getLessonCacheKey req.topic g lang)
              (builtLesson quizGen now req.topic g lang content),
            apiCallCount := st.apiCallCount + 1 }
        = (none, { st with
            lessonCache := cacheSet st.lessonCache (getLessonCacheKey req.topic g lang)
              (builtLesson quizGen now req.topic g lang content),
            apiCallCount := st.apiCallCount + 1 }) :=
      generateAudioForText_polly_fail _ _ _ _ _ hpolly haudio
    obtain ⟨r, st', he, _hl, _hcach, herr, haud⟩ :=
      lessonMissResult_parts quizGen polly now req.topic g lang content st
    refine ⟨r, ?_, ?_, herr⟩
    · rw [hcall, he]
    · rw [haud, hfail]

/-- C8 counterexample: at a concrete request whose audio synthesis throws,
    the success response has a null audio field but carries no audio-error
    key at all — the claimed non-fatal audio-error indicator does not
    exist in the emitted object. -/
theorem lesson_audio_error_indicator_absent :
    (okResp (handleLesson
        (fun _ _ _ => some "Let us learn about photosynthesis. It is the process plants use to turn light into food. It happens in leaves.")
        (fun _ _ _ => some "QUIZ") (fun _ => none) "t1"
        ⟨"Photosynthesis", .num 7, some "English"⟩
        ⟨fun _ => none, fun _ => none, 0, 0, 0, 0⟩).1).map
      (fun r => (r.audio, r.audioError, r.cached))
      = some (none, none, false) := by
  decide

/-- C8 witness: the amended statement applied at the same concrete
    request. -/
theorem lesson_audio_failure_nonfatal_witness :
    ∃ r : LessonOkResp,
      (handleLesson
          (fun _ _ _ => some "Let us learn about photosynthesis. It is the process plants use to turn light into food. It happens in leaves.")
          (fun _ _ _ => some "QUIZ") (fun _ => none) "t1"
          ⟨"Photosynthesis", .num 7, some "English"⟩
          ⟨fun _ => none, fun _ => none, 0, 0, 0, 0⟩).1 = .ok r
      ∧ r.audio = none ∧ r.audioError = none :=
  lesson_audio_failure_nonfatal
    (fun _ _ _ => some "Let us learn about photosynthesis. It is the process plants use to turn light into food. It happens in leaves.")
    (fun _ _ _ => some "QUIZ") (fun _ => none) "t1"
    ⟨"Photosynthesis", .num 7, some "English"⟩
    ⟨fun _ => none, fun _ => none, 0, 0, 0, 0⟩
    (by decide) (by decide) (fun _ => rfl) rfl (Or.inr rfl)

/-- C10: a grade of 0, an absent grade, or a non-numeric grade string is not
    rejected with a grade validation error: it defaults to 6 before
    validation runs, the handler behaves exactly as with grade 6 (hence the
    derived cache key, the stored record and the response all use grade 6),
    and grade 6 passes grade validation. -/
theorem grade_defaults_to_six :
    jsGradeLevel .absent = 6
    ∧ jsGradeLevel (.num 0) = 6
    ∧ (∀ s, jsParseInt s = none → jsGradeLevel (.str s) = 6)
    ∧ (∀ (gen quizGen : String → Int → String → Option String)
        (polly : String → Option String) (now topic : String)
        (language : Option String) (st : LessonSt) (gf : GradeField),
        jsGradeLevel gf = 6 →
        handleLesson gen quizGen polly now ⟨topic, gf, language⟩ st
          = handleLesson gen quizGen polly now ⟨topic, .num 6, language⟩ st)
    ∧ (∀ (topic language : String),
        "Grade must be between 1 and 12" ∉ validateInput topic 6 language) := by
  refine ⟨rfl, rfl, ?_, ?_, ?_⟩
  · intro s h
    simp only [jsGradeLevel]
    rw [h]
  · intro gen quizGen polly now topic language st gf hgf
    unfold handleLesson
    dsimp only
    rw [hgf, show jsGradeLevel (.num 6) = 6 from rfl]
  · intro topic language h
    unfold validateInput at h
    rcases List.mem_append.mp h with h | h4
    · rcases List.mem_append.mp h with h | h3
      · rcases List.mem_append.mp h with h1 | h2
        · split at h1
          · exact absurd h1 (by decide)
          · exact absurd h1 (by decide)
        · split at h2
          · exact absurd h2 (by decide)
          · exact absurd h2 (by decide)
      · split at h3
        · rcases ‹(6 : Int) < 1 ∨ 12 < (6 : Int)› with hh | hh <;> omega
        · exact absurd h3 (by decide)
    · split at h4
      · exact absurd h4 (by decide)
      · exact absurd h4 (by decide)

/-- C10 witness: concrete instances of the defaulting and the handler
    equivalence. -/
theorem grade_defaults_to_six_witness :
    jsGradeLevel .absent = 6
    ∧ jsGradeLevel (.str "grade six") = 6
    ∧ handleLesson (fun _ _ _ => some "X") (fun _ _ _ => none) (fun _ => none) "t"
        ⟨"Photosynthesis", .str "grade six", some "English"⟩
        ⟨fun _ => none, fun _ => none, 0, 0, 0, 0⟩
      = handleLesson (fun _ _ _ => some "X") (fun _ _ _ => none) (fun _ => none) "t"
        ⟨"Photosynthesis", .num 6, some "English"⟩
        ⟨fun _ => none, fun _ => none, 0, 0, 0, 0⟩
    ∧ "Grade must be between 1 and 12" ∉ validateInput "Photosynthesis" 6 "English" :=
  ⟨grade_defaults_to_six.1,
   grade_defaults_to_six.2.2.1 "grade six" (by decide),
   grade_defaults_to_six.2.2.2.1 _ _ _ _ _ _ _ _ (by decide),
   grade_defaults_to_six.2.2.2.2 "Photosynthesis" "English"⟩

/-- C3 witness: instantiation at concrete validated inputs. -/
theorem lessonKey_pure_normalized_injective_witness :
    (getLessonCacheKey " Photosynthesis " 7 "Hindi" = getLessonCacheKey " Photosynthesis " 7 "Hindi")
    ∧ (jsTrim (jsToLower " Photosynthesis ") = jsTrim (jsToLower "photosynthesis") →
        getLessonCacheKey " Photosynthesis " 7 "Hindi" = getLessonCacheKey "photosynthesis" 7 "Hindi")
    ∧ ((jsTrim (jsToLower " Photosynthesis "), (7 : Int), "Hindi")
          ≠ (jsTrim (jsToLower "photosynthesis"), (8 : Int), "English") →
        getLessonCacheKey " Photosynthesis " 7 "Hindi" ≠ getLessonCacheKey "photosynthesis" 8 "English") :=
  lessonKey_pure_normalized_injective " Photosynthesis " "photosynthesis" 7 8 "Hindi" "English"
    (by decide) (by decide) (by decide) (by decide) (by decide) (by decide)
